import Mathlib

/-!
Shallow embedding of the numeric core of the cea-db_maker repository:

* `src/cea_post.py`, class `Read_datset`: the grid loader (`_read_csv_` and
  the `of`/`Pc` index parsing done in `__init__`) and the
  interpolation/extrapolation closure `func` returned by `gen_func`.
* `src/design_EBHR.py`: the physical correlation functions `func_Vox`,
  `func_Vf`, `func_of`, `func_Pc_cal`, the residual `_iterat_func_Pc_`, and
  the solver driver `converge_Pc` / `gen_table` of class `Gen_excond_table`.

Python floats are modelled as exact rationals (`ℚ`); `np.pi` is modelled by
the IEEE-754 double closest to pi, which is the exact rational value the
Python code computes with.  The bicubic spline surface fitted by
`scipy.interpolate.interp2d` is external library code, so it is kept
abstract: an arbitrary function `S : ℚ → ℚ → ℚ` standing for
`func_interp`, with `S x p` the surface evaluated at mixture ratio `x` and
chamber pressure `p` (in the MPa units of the grid pressure axis).  Likewise
`scipy.optimize.newton` and `scipy.optimize.brentq` are external and enter
the solver embedding as opaque functionals; the embedding keeps the exact
argument lists the source passes to them.

Fallible Python evaluation (exceptions) is modelled with `Except`:
`EvalErr` for errors inside the interpolation closure, `LoadErr` for the
loader (where `sys.exit(1)` on a missing table is the `datasetNotFound`
outcome), `SolveErr` for errors escaping the scipy root finders.
-/

/-- Errors that can escape the `func` closure of `Read_datset.gen_func`. -/
inductive EvalErr where
  /-- Python `IndexError`: a list/array subscript out of range. -/
  | indexError : EvalErr
  /-- numpy `ValueError`: `min`/`max` of an empty array. -/
  | valueError : EvalErr
  /-- Python `UnboundLocalError`: `return(val)` with `val` never assigned. -/
  | unboundLocal : EvalErr
deriving DecidableEq

/-- Python sequence subscript `xs[i]`: a negative index counts from the end;
an index out of the valid range raises `IndexError`. -/
def pyGet {α : Type} (xs : List α) (i : Int) : Except EvalErr α :=
  let j : Int := if i < 0 then i + xs.length else i
  if h : 0 ≤ j ∧ j.toNat < xs.length then Except.ok (xs.get ⟨j.toNat, h.2⟩)
  else Except.error EvalErr.indexError

/-- numpy `array.min()`: the least element; raises `ValueError` on an empty
array. -/
def npMin {α : Type} [LinearOrder α] : List α → Except EvalErr α
  | [] => Except.error EvalErr.valueError
  | x :: xs => Except.ok (xs.foldl min x)

/-- numpy `array.max()`: the greatest element; raises `ValueError` on an
empty array. -/
def npMax {α : Type} [LinearOrder α] : List α → Except EvalErr α
  | [] => Except.error EvalErr.valueError
  | x :: xs => Except.ok (xs.foldl max x)

/-- The `extraporate` argument of `Read_datset.gen_func`: either the Python
literal `False` or a strategy name string. -/
inductive Extrap where
  | pyFalse : Extrap
  | strategy : String → Extrap
deriving DecidableEq

def strLinear : String := "linear"

def strExp : String := "exp"

def strCSTAR : String := "CSTAR"

/-- Source `extrapfunc_linear(of, a, b, diff)` from `cea_post.py`:
`val = diff*(of-a) + b`. -/
def extrapfunc_linear (of a b diff : ℚ) : ℚ := diff * (of - a) + b

/-- Source `cea_exe(of, Pc)` from `cea_post.py`: its body is `pass`, so the call
returns Python `None`. -/
def cea_exe (of Pc : ℚ) : Option ℚ := none

/-- The `of < self.of.min()` branch of `func`.  `cstr_array` is
`func_interp(self.of, Pc)` (the spline at every grid mixture ratio, at the
requested pressure), `ofs` is `self.of`, `mn` is `self.of.min()`.
The slope `diff_begin`, the anchor `a = self.of.min()` and `b =
cstr_array[0]` are computed before the strategy dispatch, exactly as in the
source; a strategy name with no live `elif` branch leaves `val` unassigned,
so `return(val)` raises `UnboundLocalError`. -/
def belowBranch (cstr_array ofs : List ℚ) (extraporate : Extrap)
    (of mn Pc : ℚ) : Except EvalErr (Option ℚ) := do
  let c0 ← pyGet cstr_array 0
  let c1 ← pyGet cstr_array 1
  let c2 ← pyGet cstr_array 2
  let o0 ← pyGet ofs 0
  let o1 ← pyGet ofs 1
  let diff_begin := (-3 * c0 + 4 * c1 - c2) / (2 * (o1 - o0))
  let a := mn
  let b := c0
  match extraporate with
  | Extrap.pyFalse => pure (cea_exe of Pc)
  | Extrap.strategy s =>
      if s = strLinear then pure (some (extrapfunc_linear of a b diff_begin))
      else Except.error EvalErr.unboundLocal

/-- The `self.of.max() < of` branch of `func`: the mirror image of
`belowBranch`, indexing the last three entries of `cstr_array` via
`len(cstr_array)-3`, `len(cstr_array)-2`, `len(cstr_array)-1` and the last
grid spacing via `self.of[len(self.of)-1] - self.of[len(self.of)-2]`;
`mx` is `self.of.max()` and `b = cstr_array[len(cstr_array)-1]`. -/
def aboveBranch (cstr_array ofs : List ℚ) (extraporate : Extrap)
    (of mx Pc : ℚ) : Except EvalErr (Option ℚ) := do
  let cA ← pyGet cstr_array ((cstr_array.length : Int) - 3)
  let cB ← pyGet cstr_array ((cstr_array.length : Int) - 2)
  let cC ← pyGet cstr_array ((cstr_array.length : Int) - 1)
  let oA ← pyGet ofs ((ofs.length : Int) - 1)
  let oB ← pyGet ofs ((ofs.length : Int) - 2)
  let diff_end := (cA - 4 * cB + 3 * cC) / (2 * (oA - oB))
  let a := mx
  let b := cC
  match extraporate with
  | Extrap.pyFalse => pure (cea_exe of Pc)
  | Extrap.strategy s =>
      if s = strLinear then pure (some (extrapfunc_linear of a b diff_end))
      else Except.error EvalErr.unboundLocal

/-- The closure `func(of, Pc)` returned by `Read_datset.gen_func`, with the
fitted spline surface abstracted as `S`.  It first rescales the pressure
(`Pc = Pc*1.0e-6`, Pa to the MPa grid axis), evaluates the spline at every
grid mixture ratio (`cstr_array = func_interp(self.of, Pc)`), then branches
on the position of `of` relative to `self.of.min()` and `self.of.max()`;
the in-range branch returns `func_interp(of, Pc)[0]`. -/
def funcEval (S : ℚ → ℚ → ℚ) (ofs : List ℚ) (extraporate : Extrap)
    (of Pc0 : ℚ) : Except EvalErr (Option ℚ) := do
  let Pc := Pc0 * (1 / 1000000)
  let cstr_array := ofs.map (fun x => S x Pc)
  let mn ← npMin ofs
  if of < mn then belowBranch cstr_array ofs extraporate of mn Pc
  else do
    let mx ← npMax ofs
    if mx < of then aboveBranch cstr_array ofs extraporate of mx Pc
    else pure (some (S of Pc))

/-- A parsed csv table: row labels (`index`, the mixture ratios), column
labels (`columns`, the chamber pressures in MPa) and the table body. -/
structure CsvFile where
  index : List ℚ
  columns : List ℚ
  body : List (List ℚ)
deriving DecidableEq

/-- Loader failures. -/
inductive LoadErr where
  /-- The requested table file does not exist: `_read_csv_` prints the
  available parameter list and calls `sys.exit(1)`, which is not caught
  anywhere in the repository. -/
  | datasetNotFound : LoadErr
  /-- The dataset folder has no files at all (`flist[0]` in `__init__`
  would fail). -/
  | emptyDataset : LoadErr
deriving DecidableEq

/-- Source `Read_datset._read_csv_(param_name)`: look the named table up in the
dataset folder (an association list of file name to parsed csv); return its
body, or fail when the file is absent. -/
def read_csv (folder : List (String × CsvFile)) (param_name : String) :
    Except LoadErr (List (List ℚ)) :=
  match List.lookup param_name folder with
  | some f => Except.ok f.body
  | none => Except.error LoadErr.datasetNotFound

/-- The in-memory grid of the data model of the spec: mixture-ratio index,
pressure index and table body. -/
structure Grid where
  of : List ℚ
  Pc : List ℚ
  value : List (List ℚ)
deriving DecidableEq

/-- The operation `load(sourceId) -> Grid` of the spec, as the repository
implements it: `Read_datset.__init__` parses `self.of` and `self.Pc` from
the first dataset file of the folder, and `_read_csv_` fetches the body of
the named table. -/
def loadGrid (folder : List (String × CsvFile)) (param_name : String) :
    Except LoadErr Grid :=
  match folder with
  | [] => Except.error LoadErr.emptyDataset
  | (_, f0) :: _ =>
      match read_csv folder param_name with
      | Except.ok body => Except.ok ⟨f0.index, f0.columns, body⟩
      | Except.error e => Except.error e

/-- Value of `np.pi` as the Python code computes with it: the IEEE-754 double
closest to pi, an exact rational. -/
def np_pi : ℚ := 884279719003555 / 281474976710656

/-- Source `func_Vox(Pc, mox, Rm, Tox, Df, a)` from `design_EBHR.py`. -/
def func_Vox (Pc mox Rm Tox Df a : ℚ) : ℚ :=
  let Af := np_pi * Df ^ 2 / 4
  mox * Rm * Tox / (Pc * Af * (1 - a))

/-- Source `func_Vf(Vox, Pc, C1, C2, n)` from `design_EBHR.py`; the only call site
passes `n=1.0`, modelled as the natural exponent `n`. -/
def func_Vf (Vox Pc C1 C2 : ℚ) (n : ℕ) : ℚ :=
  (C1 / Vox + C2) * Pc ^ n

/-- Source `func_of(Vox, Vf, rho_f, Df, a)` from `design_EBHR.py`. -/
def func_of (Vox Vf rho_f Df a : ℚ) : ℚ :=
  let Af := np_pi * Df ^ 2 / 4
  Vox / (rho_f * Af * a * Vf)

/-- Source `func_Pc_cal(of, Pc, mox, func_cstr, Dt, eta)` from `design_EBHR.py`.
The characteristic-velocity lookup is `func_cstr(of, Pc*1.0e-6)[0]`; the
scalar extraction `[0]` is absorbed into `func_cstr` being modelled as a
scalar-valued function. -/
def func_Pc_cal (of Pc mox : ℚ) (func_cstr : ℚ → ℚ → ℚ) (Dt eta : ℚ) : ℚ :=
  let cstr := func_cstr of (Pc * (1 / 1000000))
  let At := np_pi * Dt ^ 2 / 4
  eta * cstr * mox * (1 + 1 / of) / At

/-- The per-instance physical parameters of `Gen_excond_table`, as stored on
`self` after `__init__` (so `a` is already the blockage fraction and `Df`
is already in metres). -/
structure PhysParams where
  a : ℚ
  Df : ℚ
  eta : ℚ
  rho_f : ℚ
  Rm : ℚ
  Tox : ℚ
  C1 : ℚ
  C2 : ℚ
deriving DecidableEq

/-- The predicted chamber pressure as `_iterat_func_Pc_` computes it: the
velocity chain `func_Vox` → `func_Vf` → `func_of` feeding `func_Pc_cal`.
`func_cstr` stands for `gen_func_cstr(self.cea_path)`, the CSTAR property
function. -/
def Pc_cal_chain (func_cstr : ℚ → ℚ → ℚ) (p : PhysParams)
    (Pc mox Dt : ℚ) : ℚ :=
  let Vox := func_Vox Pc mox p.Rm p.Tox p.Df p.a
  let Vf := func_Vf Vox Pc p.C1 p.C2 1
  let of := func_of Vox Vf p.rho_f p.Df p.a
  func_Pc_cal of Pc mox func_cstr Dt p.eta

/-- Source `Gen_excond_table._iterat_func_Pc_(Pc, mox, Dt)`: the scalar residual
handed to the scipy root finders.  It ends with `diff = Pc_cal - Pc;
error = diff/Pc_cal; return(error)`. -/
def iterat_func_Pc (func_cstr : ℚ → ℚ → ℚ) (p : PhysParams)
    (Pc mox Dt : ℚ) : ℚ :=
  let Vox := func_Vox Pc mox p.Rm p.Tox p.Df p.a
  let Vf := func_Vf Vox Pc p.C1 p.C2 1
  let of := func_of Vox Vf p.rho_f p.Df p.a
  let Pc_cal := func_Pc_cal of Pc mox func_cstr Dt p.eta
  let diff := Pc_cal - Pc
  diff / Pc_cal

/-- Errors escaping the scipy root finders. -/
inductive SolveErr where
  /-- `RuntimeError`: the iteration budget was exhausted without
  convergence (or any other failure inside `optimize.newton`). -/
  | runtimeError : SolveErr
  /-- `ValueError` from `optimize.brentq`: `f(a)` and `f(b)` must have
  different signs (no sign change across the bracket). -/
  | noSignChange : SolveErr
deriving DecidableEq

/-- The shape of `scipy.optimize.newton` as `converge_Pc` calls it:
arguments are the residual, the initial guess `x0`, `maxiter` and `tol`. -/
def NewtonFn : Type :=
  (ℚ → Except SolveErr ℚ) → ℚ → ℕ → ℚ → Except SolveErr ℚ

/-- The shape of `scipy.optimize.brentq` as `converge_Pc` calls it:
arguments are the residual, the bracket ends `a` and `b`, `maxiter` and
`xtol`. -/
def BrentqFn : Type :=
  (ℚ → Except SolveErr ℚ) → ℚ → ℚ → ℕ → ℚ → Except SolveErr ℚ

/-- Source `Gen_excond_table.converge_Pc(mox, Dt, Pc_init)`: try
`optimize.newton(self._iterat_func_Pc_, Pc_init, maxiter=10, tol=1.0e-3,
args=(mox, Dt))`; a bare `except:` catches any failure and falls back to
`optimize.brentq(self._iterat_func_Pc_, 1.0e+4, 10e+6, maxiter=50,
xtol=1.0e-3, args=(mox, Dt))`, whose own failure propagates.  The two
scipy routines are opaque parameters; `iterat Pc mox Dt` is the residual
(fallible, since the residual itself may raise). -/
def converge_Pc (newton : NewtonFn) (brentq : BrentqFn)
    (iterat : ℚ → ℚ → ℚ → Except SolveErr ℚ)
    (mox Dt Pc_init : ℚ) : Except SolveErr ℚ :=
  match newton (fun Pc => iterat Pc mox Dt) Pc_init 10 (1 / 1000) with
  | Except.ok Pc => Except.ok Pc
  | Except.error _ => brentq (fun Pc => iterat Pc mox Dt)
      10000 10000000 50 (1 / 1000)

/-- The inner `for mox in self.mox_range` loop of `gen_table`: build the
column of converged pressures for one throat diameter; an uncaught error in
any cell aborts the loop. -/
def solve_column (cell : ℚ → Except SolveErr ℚ) :
    List ℚ → Except SolveErr (List ℚ)
  | [] => Except.ok []
  | mox :: rest => do
      let tmp ← cell mox
      let Pcs ← solve_column cell rest
      pure (tmp :: Pcs)

/-- Source `Gen_excond_table.gen_table()`: the outer `for Dt in self.Dt_range`
loop; each iteration computes one column via `converge_Pc(mox, Dt,
Pc_init=1.0e+6)` and inserts it into the data frame (here: the list of
columns, outer index `Dt`, inner index `mox`).  There is no per-cell error
handling: an error escaping `converge_Pc` aborts the whole table. -/
def gen_table (newton : NewtonFn) (brentq : BrentqFn)
    (iterat : ℚ → ℚ → ℚ → Except SolveErr ℚ)
    (mox_range : List ℚ) : List ℚ → Except SolveErr (List (List ℚ))
  | [] => Except.ok []
  | Dt :: rest => do
      let col ← solve_column
        (fun mox => converge_Pc newton brentq iterat mox Dt 1000000) mox_range
      let tbl ← gen_table newton brentq iterat mox_range rest
      pure (col :: tbl)

/-! Concrete instantiations of the opaque scipy parameters, used to evaluate
the embedded solver and residual on explicit inputs. -/

/-- A `newton` instantiation that always fails (e.g. `RuntimeError` after
exhausting `maxiter`). -/
def newtonAlwaysFails : NewtonFn := fun _ _ _ _ => Except.error SolveErr.runtimeError

/-- A `brentq` instantiation that evaluates the residual at the left
bracket end and propagates its outcome. -/
def brentqProbeLeft : BrentqFn := fun f a _ _ _ => f a

/-- A `brentq` instantiation that converges to the value 7. -/
def brentqConst7 : BrentqFn := fun _ _ _ _ _ => Except.ok 7

/-- A residual whose evaluation fails (no sign change scenario) exactly on
the cell with `mox = 1` and succeeds elsewhere. -/
def iteratToy : ℚ → ℚ → ℚ → Except SolveErr ℚ :=
  fun Pc mox _ => if mox = 1 then Except.error SolveErr.noSignChange else Except.ok Pc

/-- A residual that always evaluates successfully. -/
def iteratOk : ℚ → ℚ → ℚ → Except SolveErr ℚ := fun Pc _ _ => Except.ok Pc

/-- A concrete characteristic-velocity surface ignoring its pressure
argument, chosen so that the predicted-pressure chain evaluates to an exact
rational. -/
def cstrToy : ℚ → ℚ → ℚ := fun o _ => np_pi / (1 + 1 / o)

/-- Concrete physical parameters:
`a = 1/2, Df = 1, eta = 1, rho_f = 1, Rm = 1, Tox = 1, C1 = 0, C2 = 1`. -/
def toyParams : PhysParams := ⟨1/2, 1, 1, 1, 1, 1, 0, 1⟩

/-- A concrete parsed csv table for loader evaluations. -/
def csvToy : CsvFile := ⟨[1, 2], [3], [[4], [5]]⟩

/-! ### Helper lemmas about the Python indexing and numpy min/max models -/

theorem pyGet_int_ok {α : Type} (l : List α) (i : Int) (h0 : 0 ≤ i)
    (h : i.toNat < l.length) : pyGet l i = Except.ok (l.get ⟨i.toNat, h⟩) := by
  have hneg : ¬ i < 0 := by omega
  simp only [pyGet, hneg, if_false]
  rw [dif_pos ⟨h0, h⟩]

theorem pyGet_at {α : Type} (l : List α) (i : Int) (k : ℕ) (h0 : 0 ≤ i)
    (hik : i.toNat = k) (hk : k < l.length) :
    pyGet l i = Except.ok (l.get ⟨k, hk⟩) := by
  subst hik
  exact pyGet_int_ok l i h0 hk

theorem pyGet_nat_ok {α : Type} (l : List α) (i : ℕ) (h : i < l.length) :
    pyGet l (i : Int) = Except.ok (l.get ⟨i, h⟩) := by
  have := pyGet_int_ok l (i : Int) (Int.natCast_nonneg i) (by simpa using h)
  simpa using this

theorem pyGet_zero {α : Type} (a : α) (l : List α) :
    pyGet (a :: l) 0 = Except.ok a := by
  have := pyGet_nat_ok (a :: l) 0 (by simp)
  simpa using this

theorem pyGet_one {α : Type} (a b : α) (l : List α) :
    pyGet (a :: b :: l) 1 = Except.ok b := by
  have := pyGet_nat_ok (a :: b :: l) 1 (by simp)
  simpa using this

theorem pyGet_two {α : Type} (a b c : α) (l : List α) :
    pyGet (a :: b :: c :: l) 2 = Except.ok c := by
  have := pyGet_nat_ok (a :: b :: c :: l) 2 (by simp)
  simpa using this

theorem pyGet_len_sub_three {α : Type} (front : List α) (u v w : α) :
    pyGet (front ++ [u, v, w]) (((front ++ [u, v, w]).length : Int) - 3) =
      Except.ok u := by
  have hlen : (front ++ [u, v, w]).length = front.length + 3 := by simp
  rw [pyGet_at (front ++ [u, v, w]) _ front.length
    (by rw [hlen]; omega) (by rw [hlen]; omega) (by rw [hlen]; omega)]
  congr 1
  simp only [List.get_eq_getElem]
  rw [List.getElem_append_right (le_refl front.length)]
  simp

theorem pyGet_len_sub_two {α : Type} (front : List α) (u v w : α) :
    pyGet (front ++ [u, v, w]) (((front ++ [u, v, w]).length : Int) - 2) =
      Except.ok v := by
  have hlen : (front ++ [u, v, w]).length = front.length + 3 := by simp
  rw [pyGet_at (front ++ [u, v, w]) _ (front.length + 1)
    (by rw [hlen]; omega) (by rw [hlen]; omega) (by rw [hlen]; omega)]
  congr 1
  simp only [List.get_eq_getElem]
  rw [List.getElem_append_right (Nat.le_add_right front.length 1)]
  simp

theorem pyGet_len_sub_one {α : Type} (front : List α) (u v w : α) :
    pyGet (front ++ [u, v, w]) (((front ++ [u, v, w]).length : Int) - 1) =
      Except.ok w := by
  have hlen : (front ++ [u, v, w]).length = front.length + 3 := by simp
  rw [pyGet_at (front ++ [u, v, w]) _ (front.length + 2)
    (by rw [hlen]; omega) (by rw [hlen]; omega) (by rw [hlen]; omega)]
  congr 1
  simp only [List.get_eq_getElem]
  rw [List.getElem_append_right (Nat.le_add_right front.length 2)]
  simp

theorem foldl_min_of_le {α : Type} [LinearOrder α] :
    ∀ (xs : List α) (x : α), (∀ y ∈ xs, x ≤ y) → xs.foldl min x = x
  | [], _, _ => rfl
  | y :: t, x, h => by
      have hxy : x ≤ y := h y (List.mem_cons_self y t)
      have : ∀ z ∈ t, x ≤ z := fun z hz => h z (List.mem_cons_of_mem y hz)
      simp only [List.foldl_cons, min_eq_left hxy]
      exact foldl_min_of_le t x this

theorem npMin_sorted {α : Type} [LinearOrder α] (x : α) (xs : List α)
    (hs : List.Sorted (fun a b => a < b) (x :: xs)) :
    npMin (x :: xs) = Except.ok x := by
  have h := (List.sorted_cons.mp hs).1
  simp only [npMin]
  rw [foldl_min_of_le xs x (fun y hy => (h y hy).le)]

theorem foldl_max_sorted {α : Type} [LinearOrder α] :
    ∀ (xs : List α) (x : α), List.Sorted (fun a b => a < b) (x :: xs) →
      xs.foldl max x = (x :: xs).getLast (List.cons_ne_nil x xs)
  | [], _, _ => rfl
  | y :: t, x, h => by
      have hxy : x < y := (List.sorted_cons.mp h).1 y (List.mem_cons_self y t)
      have ht : List.Sorted (fun a b => a < b) (y :: t) := (List.sorted_cons.mp h).2
      have hrec := foldl_max_sorted t y ht
      simp only [List.foldl_cons, max_eq_right hxy.le]
      rw [hrec, List.getLast_cons (List.cons_ne_nil y t)]

theorem npMax_sorted {α : Type} [LinearOrder α] (x : α) (xs : List α)
    (hs : List.Sorted (fun a b => a < b) (x :: xs)) :
    npMax (x :: xs) = Except.ok ((x :: xs).getLast (List.cons_ne_nil x xs)) := by
  simp only [npMax]
  rw [foldl_max_sorted xs x hs]

theorem getLast_append_three {α : Type} (front : List α) (u v w : α)
    (h : front ++ [u, v, w] ≠ []) :
    (front ++ [u, v, w]).getLast h = w := by
  rw [List.getLast_append]
  simp

theorem sorted_head_le {α : Type} [LinearOrder α] (x : α) (xs : List α)
    (hs : List.Sorted (fun a b => a < b) (x :: xs)) :
    ∀ y ∈ x :: xs, x ≤ y := by
  intro y hy
  rcases List.mem_cons.mp hy with h | h
  · exact h.ge
  · exact ((List.sorted_cons.mp hs).1 y h).le

/-! ### Evaluation lemmas for the `func` closure -/

theorem except_bind_pure_ok {ε α β : Type} (a : α) (f : α → Except ε β) :
    Bind.bind (Except.ok a) f = f a := rfl

theorem except_bind_pure_error {ε α β : Type} (e : ε) (f : α → Except ε β) :
    Bind.bind (Except.error e : Except ε α) f = Except.error e := rfl

theorem funcEval_below (S : ℚ → ℚ → ℚ) (ofs : List ℚ) (extraporate : Extrap)
    (of Pc0 mn : ℚ) (hmn : npMin ofs = Except.ok mn) (h : of < mn) :
    funcEval S ofs extraporate of Pc0 =
      belowBranch (ofs.map (fun x => S x (Pc0 * (1 / 1000000)))) ofs
        extraporate of mn (Pc0 * (1 / 1000000)) := by
  unfold funcEval
  rw [hmn]
  simp only [except_bind_pure_ok]
  rw [if_pos h]

theorem funcEval_above (S : ℚ → ℚ → ℚ) (ofs : List ℚ) (extraporate : Extrap)
    (of Pc0 mn mx : ℚ) (hmn : npMin ofs = Except.ok mn) (h1 : ¬ of < mn)
    (hmx : npMax ofs = Except.ok mx) (h2 : mx < of) :
    funcEval S ofs extraporate of Pc0 =
      aboveBranch (ofs.map (fun x => S x (Pc0 * (1 / 1000000)))) ofs
        extraporate of mx (Pc0 * (1 / 1000000)) := by
  unfold funcEval
  rw [hmn, hmx]
  simp only [except_bind_pure_ok]
  rw [if_neg h1, if_pos h2]

theorem funcEval_inrange (S : ℚ → ℚ → ℚ) (ofs : List ℚ) (extraporate : Extrap)
    (of Pc0 mn mx : ℚ) (hmn : npMin ofs = Except.ok mn) (h1 : ¬ of < mn)
    (hmx : npMax ofs = Except.ok mx) (h2 : ¬ mx < of) :
    funcEval S ofs extraporate of Pc0 =
      Except.ok (some (S of (Pc0 * (1 / 1000000)))) := by
  unfold funcEval
  rw [hmn, hmx]
  simp only [except_bind_pure_ok]
  rw [if_neg h1, if_neg h2]
  rfl

theorem belowBranch_linear (c0 c1 c2 : ℚ) (crest : List ℚ) (o0 o1 : ℚ)
    (orest : List ℚ) (of mn Pc : ℚ) :
    belowBranch (c0 :: c1 :: c2 :: crest) (o0 :: o1 :: orest)
      (Extrap.strategy strLinear) of mn Pc =
      Except.ok (some (extrapfunc_linear of mn c0
        ((-3 * c0 + 4 * c1 - c2) / (2 * (o1 - o0))))) := by
  unfold belowBranch
  rw [pyGet_zero, pyGet_one, pyGet_two, pyGet_zero, pyGet_one]
  rfl

theorem belowBranch_other (c0 c1 c2 : ℚ) (crest : List ℚ) (o0 o1 : ℚ)
    (orest : List ℚ) (of mn Pc : ℚ) (s : String) (hs : s ≠ strLinear) :
    belowBranch (c0 :: c1 :: c2 :: crest) (o0 :: o1 :: orest)
      (Extrap.strategy s) of mn Pc = Except.error EvalErr.unboundLocal := by
  unfold belowBranch
  rw [pyGet_zero, pyGet_one, pyGet_two, pyGet_zero, pyGet_one]
  exact if_neg hs

theorem aboveBranch_linear (cfront : List ℚ) (cu cv cw : ℚ) (ofront : List ℚ)
    (u v w : ℚ) (of mx Pc : ℚ) :
    aboveBranch (cfront ++ [cu, cv, cw]) (ofront ++ [u, v, w])
      (Extrap.strategy strLinear) of mx Pc =
      Except.ok (some (extrapfunc_linear of mx cw
        ((cu - 4 * cv + 3 * cw) / (2 * (w - v))))) := by
  unfold aboveBranch
  rw [pyGet_len_sub_three, pyGet_len_sub_two, pyGet_len_sub_one,
    pyGet_len_sub_one, pyGet_len_sub_two]
  rfl

theorem aboveBranch_other (cfront : List ℚ) (cu cv cw : ℚ) (ofront : List ℚ)
    (u v w : ℚ) (of mx Pc : ℚ) (s : String) (hs : s ≠ strLinear) :
    aboveBranch (cfront ++ [cu, cv, cw]) (ofront ++ [u, v, w])
      (Extrap.strategy s) of mx Pc = Except.error EvalErr.unboundLocal := by
  unfold aboveBranch
  rw [pyGet_len_sub_three, pyGet_len_sub_two, pyGet_len_sub_one,
    pyGet_len_sub_one, pyGet_len_sub_two]
  exact if_neg hs

/-! ### Helper lemmas for the batch sweep -/

theorem solve_column_ok (cell : ℚ → Except SolveErr ℚ) (g : ℚ → ℚ) :
    ∀ l : List ℚ, (∀ m ∈ l, cell m = Except.ok (g m)) →
      solve_column cell l = Except.ok (l.map g)
  | [], _ => rfl
  | m :: rest, h => by
      have hm : cell m = Except.ok (g m) := h m (List.mem_cons_self m rest)
      have hr := solve_column_ok cell g rest
        (fun x hx => h x (List.mem_cons_of_mem m hx))
      simp only [solve_column, hm, except_bind_pure_ok, hr]
      rfl

theorem solve_column_error (cell : ℚ → Except SolveErr ℚ) (e : SolveErr) :
    ∀ l : List ℚ, ∀ m ∈ l, cell m = Except.error e →
      ∃ e2, solve_column cell l = Except.error e2
  | m0 :: rest, m, hm, he => by
      rcases hc : cell m0 with e1 | v
      · refine ⟨e1, ?_⟩
        simp only [solve_column, hc, except_bind_pure_error]
      · rcases List.mem_cons.mp hm with h | h
        · rw [h, hc] at he
          exact Except.noConfusion he
        · rcases solve_column_error cell e rest m h he with ⟨e2, h2⟩
          refine ⟨e2, ?_⟩
          simp only [solve_column, hc, except_bind_pure_ok, h2,
            except_bind_pure_error]

theorem gen_table_ok (newton : NewtonFn) (brentq : BrentqFn)
    (iterat : ℚ → ℚ → ℚ → Except SolveErr ℚ) (mox_range : List ℚ)
    (g : ℚ → ℚ → ℚ) :
    ∀ Dts : List ℚ,
      (∀ Dt ∈ Dts, ∀ m ∈ mox_range,
        converge_Pc newton brentq iterat m Dt 1000000 = Except.ok (g m Dt)) →
      gen_table newton brentq iterat mox_range Dts =
        Except.ok (Dts.map (fun Dt => mox_range.map (fun m => g m Dt)))
  | [], _ => rfl
  | Dt :: rest, h => by
      have hc := solve_column_ok
        (fun mox => converge_Pc newton brentq iterat mox Dt 1000000)
        (fun m => g m Dt) mox_range
        (fun m hm => h Dt (List.mem_cons_self Dt rest) m hm)
      have hr := gen_table_ok newton brentq iterat mox_range g rest
        (fun D hD m hm => h D (List.mem_cons_of_mem Dt hD) m hm)
      simp only [gen_table, hc, except_bind_pure_ok, hr]
      rfl

theorem gen_table_error (newton : NewtonFn) (brentq : BrentqFn)
    (iterat : ℚ → ℚ → ℚ → Except SolveErr ℚ) (mox_range : List ℚ)
    (e : SolveErr) (m : ℚ) (hm : m ∈ mox_range) :
    ∀ Dts : List ℚ, ∀ Dt ∈ Dts,
      converge_Pc newton brentq iterat m Dt 1000000 = Except.error e →
      ∃ e2, gen_table newton brentq iterat mox_range Dts = Except.error e2
  | D :: rest, Dt, hD, he => by
      rcases List.mem_cons.mp hD with h | h
      · subst h
        rcases solve_column_error
          (fun mox => converge_Pc newton brentq iterat mox Dt 1000000)
          e mox_range m hm he with ⟨e2, h2⟩
        refine ⟨e2, ?_⟩
        simp only [gen_table, h2, except_bind_pure_error]
      · rcases hc : solve_column
          (fun mox => converge_Pc newton brentq iterat mox D 1000000)
          mox_range with e1 | col
        · refine ⟨e1, ?_⟩
          simp only [gen_table, hc, except_bind_pure_error]
        · rcases gen_table_error newton brentq iterat mox_range e m hm rest
            Dt h he with ⟨e2, h2⟩
          refine ⟨e2, ?_⟩
          simp only [gen_table, hc, except_bind_pure_ok, h2,
            except_bind_pure_error]

/-! ### More helper lemmas -/

theorem npMin_head {α : Type} [LinearOrder α] (l : List α)
    (hs : List.Sorted (fun a b => a < b) l) (hne : l ≠ []) :
    npMin l = Except.ok (l.head hne) := by
  cases l with
  | nil => exact absurd rfl hne
  | cons x xs => exact npMin_sorted x xs hs

theorem npMax_last {α : Type} [LinearOrder α] (l : List α)
    (hs : List.Sorted (fun a b => a < b) l) (hne : l ≠ []) :
    npMax l = Except.ok (l.getLast hne) := by
  cases l with
  | nil => exact absurd rfl hne
  | cons x xs => exact npMax_sorted x xs hs

theorem sorted_head_le_mem {α : Type} [LinearOrder α] (l : List α)
    (hs : List.Sorted (fun a b => a < b) l) (hne : l ≠ []) :
    ∀ y ∈ l, l.head hne ≤ y := by
  cases l with
  | nil => exact absurd rfl hne
  | cons x xs => exact sorted_head_le x xs hs

theorem exists_last_three {α : Type} :
    ∀ (l : List α), 3 ≤ l.length → ∃ front u v w, l = front ++ [u, v, w]
  | [], h => by simp at h
  | [x], h => by simp at h
  | [x, y], h => by simp at h
  | [u, v, w], _ => ⟨[], u, v, w, rfl⟩
  | a :: b :: c :: d :: t, _ => by
      rcases exists_last_three (b :: c :: d :: t)
        (by simp only [List.length_cons]; omega) with ⟨fr, u, v, w, hw⟩
      exact ⟨a :: fr, u, v, w, by rw [hw, List.cons_append]⟩

theorem aboveBranch_two (c0 c1 x y of mx Pc : ℚ) :
    aboveBranch [c0, c1] [x, y] (Extrap.strategy strLinear) of mx Pc =
      Except.ok (some (extrapfunc_linear of mx c1
        ((c1 - 4 * c0 + 3 * c1) / (2 * (y - x))))) := rfl

theorem chain_toy_eval : Pc_cal_chain cstrToy toyParams 2 1 1 = 4 := by
  norm_num [Pc_cal_chain, func_Pc_cal, func_of, func_Vf, func_Vox, cstrToy,
    toyParams, np_pi]

/-! ### Claim theorems -/

/-- Claim C2: `func_Pc_cal` returns
`eta * cstar * mox * (1 + 1/of) / (pi*Dt^2/4)`, but it obtains the
characteristic velocity by evaluating the Property Function at the point
`(of, Pc * 1.0e-6)` — not at `(of, Pc)` as the claim and the documented
Pa interface of the Property Function require. -/
theorem C2_predicted_pressure_formula (func_cstr : ℚ → ℚ → ℚ)
    (of Pc mox Dt eta : ℚ) :
    func_Pc_cal of Pc mox func_cstr Dt eta =
      eta * func_cstr of (Pc * (1 / 1000000)) * mox * (1 + 1 / of) /
        (np_pi * Dt ^ 2 / 4) := rfl

/-- Claim C7 (amended): the residual handed to the root finders is the
relative difference `(Pc_cal - Pc) / Pc_cal`, not the absolute difference
`Pc_cal - Pc`; whenever the predicted pressure is nonzero the two vanish
together, so the root set is unchanged. -/
theorem C7_residual_is_relative (func_cstr : ℚ → ℚ → ℚ) (p : PhysParams)
    (Pc mox Dt : ℚ) :
    iterat_func_Pc func_cstr p Pc mox Dt =
      (Pc_cal_chain func_cstr p Pc mox Dt - Pc) /
        Pc_cal_chain func_cstr p Pc mox Dt ∧
    (Pc_cal_chain func_cstr p Pc mox Dt ≠ 0 →
      (iterat_func_Pc func_cstr p Pc mox Dt = 0 ↔
        Pc_cal_chain func_cstr p Pc mox Dt = Pc)) := by
  have h1 : iterat_func_Pc func_cstr p Pc mox Dt =
      (Pc_cal_chain func_cstr p Pc mox Dt - Pc) /
        Pc_cal_chain func_cstr p Pc mox Dt := rfl
  refine ⟨h1, fun h => ?_⟩
  rw [h1, div_eq_zero_iff, sub_eq_zero]
  simp [h]

/-- Witness for C7: at the concrete instantiation the predicted pressure is
`4 ≠ 0` and the residual vanishes exactly when the predicted pressure equals
the assumed `Pc = 2`. -/
theorem C7_residual_is_relative_witness :
    Pc_cal_chain cstrToy toyParams 2 1 1 ≠ 0 ∧
    (iterat_func_Pc cstrToy toyParams 2 1 1 = 0 ↔
      Pc_cal_chain cstrToy toyParams 2 1 1 = 2) := by
  have hne : Pc_cal_chain cstrToy toyParams 2 1 1 ≠ 0 := by
    rw [chain_toy_eval]; norm_num
  exact ⟨hne, (C7_residual_is_relative cstrToy toyParams 2 1 1).2 hne⟩

/-- Counterexample for C7 as stated: at `Pc = 2, mox = 1, Dt = 1` with the
concrete parameters, the residual is `(4-2)/4 = 1/2`, not the absolute
difference `4 - 2 = 2`. -/
theorem C7_absolute_residual_refuted :
    iterat_func_Pc cstrToy toyParams 2 1 1 ≠
      Pc_cal_chain cstrToy toyParams 2 1 1 - 2 := by
  have h1 : iterat_func_Pc cstrToy toyParams 2 1 1 =
      (Pc_cal_chain cstrToy toyParams 2 1 1 - 2) /
        Pc_cal_chain cstrToy toyParams 2 1 1 := rfl
  rw [h1, chain_toy_eval]
  norm_num

/-- Claim C3: `converge_Pc` first calls `newton` with `maxiter = 10` and
`tol = 1.0e-3`; any failure there is swallowed and the call becomes
`brentq` over the fixed bracket `[1.0e4, 1.0e7]` Pa with `maxiter = 50`,
`xtol = 1.0e-3`; a success returns the Newton root directly; an error
surfaces only when Newton failed and Brent failed too. -/
theorem C3_newton_brent_fallback (newton : NewtonFn) (brentq : BrentqFn)
    (iterat : ℚ → ℚ → ℚ → Except SolveErr ℚ) (mox Dt Pc_init : ℚ) :
    (∀ e, newton (fun Pc => iterat Pc mox Dt) Pc_init 10 (1 / 1000) =
        Except.error e →
      converge_Pc newton brentq iterat mox Dt Pc_init =
        brentq (fun Pc => iterat Pc mox Dt) 10000 10000000 50 (1 / 1000)) ∧
    (∀ v, newton (fun Pc => iterat Pc mox Dt) Pc_init 10 (1 / 1000) =
        Except.ok v →
      converge_Pc newton brentq iterat mox Dt Pc_init = Except.ok v) ∧
    (∀ e2, converge_Pc newton brentq iterat mox Dt Pc_init =
        Except.error e2 →
      (∃ e1, newton (fun Pc => iterat Pc mox Dt) Pc_init 10 (1 / 1000) =
        Except.error e1) ∧
      brentq (fun Pc => iterat Pc mox Dt) 10000 10000000 50 (1 / 1000) =
        Except.error e2) := by
  refine ⟨?_, ?_, ?_⟩
  · intro e he
    unfold converge_Pc
    rw [he]
  · intro v hv
    unfold converge_Pc
    rw [hv]
  · intro e2 h2
    rcases hN : newton (fun Pc => iterat Pc mox Dt) Pc_init 10 (1 / 1000)
      with e1 | v
    · have hc : converge_Pc newton brentq iterat mox Dt Pc_init =
        brentq (fun Pc => iterat Pc mox Dt) 10000 10000000 50 (1 / 1000) := by
        unfold converge_Pc
        rw [hN]
      rw [hc] at h2
      exact ⟨⟨e1, rfl⟩, h2⟩
    · have hc : converge_Pc newton brentq iterat mox Dt Pc_init =
        Except.ok v := by
        unfold converge_Pc
        rw [hN]
      rw [hc] at h2
      exact Except.noConfusion h2

/-- Witness for C3: with a Newton that always fails and a Brent that
converges to 7, the solver returns the Brent root. -/
theorem C3_newton_brent_fallback_witness :
    converge_Pc newtonAlwaysFails brentqConst7 iteratOk 1 1 5 = Except.ok 7 := by
  have h := (C3_newton_brent_fallback newtonAlwaysFails brentqConst7 iteratOk
    1 1 5).1 SolveErr.runtimeError rfl
  rw [h]
  rfl

/-- Claim C1 (amended): `gen_table` solves the cells in sequence (outer
loop `Dt`, inner loop `mox`, fixed initial guess `1.0e6` per cell); if
every cell converges the full table of columns is produced, but a
`ConvergenceFailure` in any one cell propagates out of `gen_table` and
aborts the whole batch — no table is produced and no per-cell marking
occurs. -/
theorem C1_batch_abort (newton : NewtonFn) (brentq : BrentqFn)
    (iterat : ℚ → ℚ → ℚ → Except SolveErr ℚ)
    (mox_range Dt_range : List ℚ) (g : ℚ → ℚ → ℚ) :
    ((∀ Dt ∈ Dt_range, ∀ m ∈ mox_range,
        converge_Pc newton brentq iterat m Dt 1000000 = Except.ok (g m Dt)) →
      gen_table newton brentq iterat mox_range Dt_range =
        Except.ok (Dt_range.map (fun Dt =>
          mox_range.map (fun m => g m Dt)))) ∧
    (∀ m ∈ mox_range, ∀ Dt ∈ Dt_range, ∀ e,
        converge_Pc newton brentq iterat m Dt 1000000 = Except.error e →
      ∃ e2, gen_table newton brentq iterat mox_range Dt_range =
        Except.error e2) := by
  constructor
  · exact gen_table_ok newton brentq iterat mox_range g Dt_range
  · intro m hm Dt hD e he
    exact gen_table_error newton brentq iterat mox_range e m hm Dt_range Dt hD he

/-- Witness for C1: a 2-by-1 sweep in which every cell converges produces
the full table. -/
theorem C1_batch_abort_witness :
    gen_table newtonAlwaysFails brentqProbeLeft iteratOk [1, 2] [1] =
      Except.ok [[10000, 10000]] := by
  have h := (C1_batch_abort newtonAlwaysFails brentqProbeLeft iteratOk
    [1, 2] [1] (fun _ _ => 10000)).1 (fun Dt _ m _ => rfl)
  rw [h]
  rfl

/-- Counterexample for C1 as stated: in a 2-by-1 sweep where the
`(mox = 1, Dt = 1)` cell fails in both Newton and Brent, `gen_table`
returns a bare error — no table is produced, the failed cell is not
recorded, and the `(mox = 2, Dt = 1)` cell, which would converge on its
own, is never delivered. -/
theorem C1_per_cell_isolation_refuted :
    gen_table newtonAlwaysFails brentqProbeLeft iteratToy [1, 2] [1] =
      Except.error SolveErr.noSignChange ∧
    converge_Pc newtonAlwaysFails brentqProbeLeft iteratToy 2 1 1000000 =
      Except.ok 10000 := ⟨rfl, rfl⟩

/-- Claim C9: the load operation (`Read_datset.__init__` + `_read_csv_`)
fails with `DatasetNotFound` (printed message plus `sys.exit(1)`, caught
nowhere in the repository) when the named table is absent, and otherwise
returns the parsed row index, column index and the body of the named table. -/
theorem C9_loader_contract (folder : List (String × CsvFile))
    (param_name : String) (p0 : String × CsvFile)
    (rest : List (String × CsvFile)) (hf : folder = p0 :: rest) :
    (List.lookup param_name folder = none →
      loadGrid folder param_name = Except.error LoadErr.datasetNotFound) ∧
    (∀ f : CsvFile, List.lookup param_name folder = some f →
      loadGrid folder param_name =
        Except.ok ⟨p0.2.index, p0.2.columns, f.body⟩) := by
  subst hf
  obtain ⟨n0, f0⟩ := p0
  constructor
  · intro h
    simp only [loadGrid, read_csv, h]
  · intro f hf2
    simp only [loadGrid, read_csv, hf2]

/-- Witness for C9: loading the present `CSTAR` table succeeds with the
parsed indices and body. -/
theorem C9_loader_contract_witness :
    loadGrid [(strCSTAR, csvToy)] strCSTAR =
      Except.ok ⟨csvToy.index, csvToy.columns, csvToy.body⟩ := by
  have h := (C9_loader_contract [(strCSTAR, csvToy)] strCSTAR
    (strCSTAR, csvToy) [] rfl).2 csvToy rfl
  exact h

theorem exists_first_three {α : Type} :
    ∀ (l : List α), 3 ≤ l.length → ∃ o0 o1 o2 rest, l = o0 :: o1 :: o2 :: rest
  | [], h => by simp at h
  | [x], h => by simp at h
  | [x, y], h => by simp at h
  | o0 :: o1 :: o2 :: rest, _ => ⟨o0, o1, o2, rest, rfl⟩

theorem npMax_append_three (front : List ℚ) (u v w : ℚ)
    (hs : List.Sorted (fun a b => a < b) (front ++ [u, v, w])) :
    npMax (front ++ [u, v, w]) = Except.ok w := by
  have hne : front ++ [u, v, w] ≠ [] := by simp
  rw [npMax_last (front ++ [u, v, w]) hs hne,
    getLast_append_three front u v w hne]

/-- Claim C4: for a sorted grid with at least three mixture-ratio points,
the value returned below `of.min()` is
`slope * (of - of.min()) + S(of.min(), pc)` with the slope the three-point
one-sided estimate from the spline at the first three grid points, and
above `of.max()` the mirror formula anchored at `of.max()` from the last
three grid points (`pc` is rescaled by `1.0e-6` once, as for every branch
of `func`). -/
theorem C4_linear_extrapolation_formula (S : ℚ → ℚ → ℚ) (ofs : List ℚ)
    (of Pc0 : ℚ) (hsort : List.Sorted (fun a b => a < b) ofs) :
    (∀ o0 o1 o2 rest, ofs = o0 :: o1 :: o2 :: rest → of < o0 →
      funcEval S ofs (Extrap.strategy strLinear) of Pc0 =
        Except.ok (some
          (((-3 * S o0 (Pc0 * (1 / 1000000)) + 4 * S o1 (Pc0 * (1 / 1000000))
              - S o2 (Pc0 * (1 / 1000000))) / (2 * (o1 - o0))) * (of - o0)
            + S o0 (Pc0 * (1 / 1000000))))) ∧
    (∀ front u v w, ofs = front ++ [u, v, w] → w < of →
      funcEval S ofs (Extrap.strategy strLinear) of Pc0 =
        Except.ok (some
          (((S u (Pc0 * (1 / 1000000)) - 4 * S v (Pc0 * (1 / 1000000))
              + 3 * S w (Pc0 * (1 / 1000000))) / (2 * (w - v))) * (of - w)
            + S w (Pc0 * (1 / 1000000))))) := by
  constructor
  · intro o0 o1 o2 rest hofs hlt
    subst hofs
    have hmn := npMin_sorted o0 (o1 :: o2 :: rest) hsort
    rw [funcEval_below S _ _ of Pc0 o0 hmn hlt]
    simp only [List.map_cons]
    rw [belowBranch_linear]
    simp only [extrapfunc_linear]
  · intro front u v w hofs hlt
    subst hofs
    have hne : front ++ [u, v, w] ≠ [] := by simp
    have hmn := npMin_head (front ++ [u, v, w]) hsort hne
    have hwm : w ∈ front ++ [u, v, w] := by simp
    have hh : (front ++ [u, v, w]).head hne ≤ w :=
      sorted_head_le_mem _ hsort hne w hwm
    have h1 : ¬ of < (front ++ [u, v, w]).head hne :=
      not_lt.mpr (le_of_lt (lt_of_le_of_lt hh hlt))
    have hmx := npMax_append_three front u v w hsort
    rw [funcEval_above S _ _ of Pc0 _ w hmn h1 hmx hlt]
    simp only [List.map_append, List.map_cons, List.map_nil]
    rw [aboveBranch_linear]
    simp only [extrapfunc_linear]

/-- Witness for C4: on the grid `[1, 2, 3]` with surface `S(a, b) = a + b`
at `pc = 2.0e6` Pa, the extrapolated value at `of = 0` is `2`. -/
theorem C4_linear_extrapolation_formula_witness :
    funcEval (fun a b => a + b) [1, 2, 3] (Extrap.strategy strLinear)
      0 2000000 = Except.ok (some 2) := by
  have h := (C4_linear_extrapolation_formula (fun a b => a + b) [1, 2, 3]
    0 2000000 (by decide)).1 1 2 3 [] rfl (by norm_num)
  rw [h]
  norm_num

/-- Claim C5: on a sorted grid with at least three mixture-ratio points,
the linear-extrapolation branch evaluated at exactly `of.min()`
(respectively `of.max()`) returns the boundary spline value, which is
exactly what the in-range branch of `func` returns there — the two
branches agree at both boundary points, for any requested `pc`. -/
theorem C5_boundary_continuity (S : ℚ → ℚ → ℚ) (ofs : List ℚ)
    (Pc0 mn mx : ℚ) (hsort : List.Sorted (fun a b => a < b) ofs)
    (hlen : 3 ≤ ofs.length) (hmn : npMin ofs = Except.ok mn)
    (hmx : npMax ofs = Except.ok mx) :
    belowBranch (ofs.map (fun x => S x (Pc0 * (1 / 1000000)))) ofs
        (Extrap.strategy strLinear) mn mn (Pc0 * (1 / 1000000)) =
      Except.ok (some (S mn (Pc0 * (1 / 1000000)))) ∧
    aboveBranch (ofs.map (fun x => S x (Pc0 * (1 / 1000000)))) ofs
        (Extrap.strategy strLinear) mx mx (Pc0 * (1 / 1000000)) =
      Except.ok (some (S mx (Pc0 * (1 / 1000000)))) ∧
    funcEval S ofs (Extrap.strategy strLinear) mn Pc0 =
      Except.ok (some (S mn (Pc0 * (1 / 1000000)))) ∧
    funcEval S ofs (Extrap.strategy strLinear) mx Pc0 =
      Except.ok (some (S mx (Pc0 * (1 / 1000000)))) := by
  obtain ⟨o0, o1, o2, rest, hdec⟩ := exists_first_three ofs hlen
  obtain ⟨front, u, v, w, hdec2⟩ := exists_last_three ofs hlen
  subst hdec
  have hmn0 : o0 = mn :=
    Except.ok.inj ((npMin_sorted o0 (o1 :: o2 :: rest) hsort).symm.trans hmn)
  subst hmn0
  have hmxw : w = mx :=
    Except.ok.inj ((npMax_append_three front u v w
      (hdec2 ▸ hsort)).symm.trans (hdec2 ▸ hmx))
  subst hmxw
  have hwmem : w ∈ o0 :: o1 :: o2 :: rest := by rw [hdec2]; simp
  have hle : o0 ≤ w := sorted_head_le o0 (o1 :: o2 :: rest) hsort w hwmem
  refine ⟨?_, ?_, ?_, ?_⟩
  · simp only [List.map_cons]
    rw [belowBranch_linear]
    simp [extrapfunc_linear]
  · rw [hdec2]
    simp only [List.map_append, List.map_cons, List.map_nil]
    rw [aboveBranch_linear]
    simp [extrapfunc_linear]
  · rw [funcEval_inrange S _ _ o0 Pc0 o0 w hmn (lt_irrefl o0) hmx
      (not_lt.mpr hle)]
  · rw [funcEval_inrange S _ _ w Pc0 o0 w hmn (not_lt.mpr hle) hmx
      (lt_irrefl w)]

/-- Witness for C5: on the grid `[1, 2, 3]` with `S(a, b) = a + b`, the
in-range branch at the boundary `of = 1` returns the boundary value `3`. -/
theorem C5_boundary_continuity_witness :
    funcEval (fun a b => a + b) [1, 2, 3] (Extrap.strategy strLinear)
      1 2000000 = Except.ok (some 3) := by
  have h := (C5_boundary_continuity (fun a b => a + b) [1, 2, 3]
    2000000 1 3 (by decide) (by decide) rfl rfl).2.2.1
  rw [h]
  norm_num

/-- Claim C10: for every strategy name other than `"linear"` (e.g. the
documented `"exp"`, `"exp2"`, `"ln"`, `"inverse"`, `"power"`), an
out-of-range evaluation reaches a branch where no `val` is ever assigned:
the call fails with `UnboundLocalError` instead of returning a number. -/
theorem C10_dead_strategy_names (S : ℚ → ℚ → ℚ) (ofs : List ℚ) (s : String)
    (of Pc0 mn mx : ℚ) (hsort : List.Sorted (fun a b => a < b) ofs)
    (hlen : 3 ≤ ofs.length) (hs : s ≠ strLinear)
    (hmn : npMin ofs = Except.ok mn) (hmx : npMax ofs = Except.ok mx)
    (hout : of < mn ∨ mx < of) :
    funcEval S ofs (Extrap.strategy s) of Pc0 =
      Except.error EvalErr.unboundLocal := by
  obtain ⟨o0, o1, o2, rest, hdec⟩ := exists_first_three ofs hlen
  obtain ⟨front, u, v, w, hdec2⟩ := exists_last_three ofs hlen
  subst hdec
  have hmn0 : o0 = mn :=
    Except.ok.inj ((npMin_sorted o0 (o1 :: o2 :: rest) hsort).symm.trans hmn)
  subst hmn0
  have hmxw : w = mx :=
    Except.ok.inj ((npMax_append_three front u v w
      (hdec2 ▸ hsort)).symm.trans (hdec2 ▸ hmx))
  subst hmxw
  rcases hout with h | h
  · rw [funcEval_below S _ _ of Pc0 o0 hmn h]
    simp only [List.map_cons]
    exact belowBranch_other _ _ _ _ _ _ _ _ _ _ _ hs
  · have hwmem : w ∈ o0 :: o1 :: o2 :: rest := by rw [hdec2]; simp
    have hle : o0 ≤ w := sorted_head_le o0 (o1 :: o2 :: rest) hsort w hwmem
    have h1 : ¬ of < o0 := not_lt.mpr (le_of_lt (lt_of_le_of_lt hle h))
    rw [funcEval_above S _ _ of Pc0 o0 w hmn h1 hmx h]
    rw [hdec2]
    simp only [List.map_append, List.map_cons, List.map_nil]
    exact aboveBranch_other _ _ _ _ _ _ _ _ _ _ _ _ hs

/-- Witness for C10: requesting the `"exp"` strategy out of range on the
grid `[1, 2, 3]` fails with `UnboundLocalError`. -/
theorem C10_dead_strategy_names_witness :
    funcEval (fun a b => a + b) [1, 2, 3] (Extrap.strategy strExp)
      0 2000000 = Except.error EvalErr.unboundLocal :=
  C10_dead_strategy_names (fun a b => a + b) [1, 2, 3] strExp 0 2000000 1 3
    (by decide) (by decide) (by decide) rfl rfl (Or.inl (by norm_num))

/-- Claim C6 (amended): on a grid with fewer than 3 mixture-ratio points,
an extrapolating evaluation below `of.min()` fails — but with a generic
uncaught error (a `ValueError` from `min` on the empty grid, otherwise an
`IndexError` from `cstr_array[2]` or `cstr_array[1]`), not a dedicated
`InsufficientGridPoints` error; above `of.max()` a single-point grid fails
likewise (negative index `len-3 = -2` out of range), while a two-point
grid raises no error at all: Python negative indexing silently yields a
linearly extrapolated number built from a mis-sampled slope. -/
theorem C6_small_grid (S : ℚ → ℚ → ℚ) (ofs : List ℚ) (of Pc0 : ℚ)
    (hsort : List.Sorted (fun a b => a < b) ofs) (hlen : ofs.length < 3) :
    (ofs = [] → funcEval S ofs (Extrap.strategy strLinear) of Pc0 =
      Except.error EvalErr.valueError) ∧
    (∀ mn, npMin ofs = Except.ok mn → of < mn →
      funcEval S ofs (Extrap.strategy strLinear) of Pc0 =
        Except.error EvalErr.indexError) ∧
    (∀ x, ofs = [x] → x < of →
      funcEval S ofs (Extrap.strategy strLinear) of Pc0 =
        Except.error EvalErr.indexError) ∧
    (∀ x y, ofs = [x, y] → y < of →
      ∃ val, funcEval S ofs (Extrap.strategy strLinear) of Pc0 =
        Except.ok (some val)) := by
  refine ⟨?_, ?_, ?_, ?_⟩
  · intro h
    subst h
    rfl
  · intro mn hmn hlt
    rcases ofs with _ | ⟨x, _ | ⟨y, _ | ⟨z, t⟩⟩⟩
    · exact Except.noConfusion hmn
    · have hx : x = mn :=
        Except.ok.inj ((npMin_sorted x [] hsort).symm.trans hmn)
      subst hx
      rw [funcEval_below S [x] _ of Pc0 x hmn hlt]
      rfl
    · have hx : x = mn :=
        Except.ok.inj ((npMin_sorted x [y] hsort).symm.trans hmn)
      subst hx
      rw [funcEval_below S [x, y] _ of Pc0 x hmn hlt]
      rfl
    · simp only [List.length_cons] at hlen
      omega
  · intro x hx hlt
    subst hx
    have hmn : npMin [x] = Except.ok x := npMin_sorted x [] hsort
    have h1 : ¬ of < x := not_lt.mpr hlt.le
    have hmx : npMax [x] = Except.ok x := npMax_sorted x [] hsort
    rw [funcEval_above S [x] _ of Pc0 x x hmn h1 hmx hlt]
    rfl
  · intro x y hxy hlt
    subst hxy
    have hsxy : x < y :=
      (List.sorted_cons.mp hsort).1 y (List.mem_cons_self y [])
    have hmn : npMin [x, y] = Except.ok x := npMin_sorted x [y] hsort
    have h1 : ¬ of < x := not_lt.mpr (le_of_lt (lt_trans hsxy hlt))
    have hmx : npMax [x, y] = Except.ok y := npMax_sorted x [y] hsort
    refine ⟨extrapfunc_linear of y (S y (Pc0 * (1 / 1000000)))
      ((S y (Pc0 * (1 / 1000000)) - 4 * S x (Pc0 * (1 / 1000000))
        + 3 * S y (Pc0 * (1 / 1000000))) / (2 * (y - x))), ?_⟩
    rw [funcEval_above S [x, y] _ of Pc0 x y hmn h1 hmx hlt]
    exact aboveBranch_two (S x (Pc0 * (1 / 1000000)))
      (S y (Pc0 * (1 / 1000000))) x y of y (Pc0 * (1 / 1000000))

/-- Witness for C6 (amended): on the two-point grid `[1, 2]`, evaluating
below the minimum at `of = 0` fails with the raw `IndexError`. -/
theorem C6_small_grid_witness :
    funcEval (fun a b => a + b) [1, 2] (Extrap.strategy strLinear)
      0 1000000 = Except.error EvalErr.indexError :=
  (C6_small_grid (fun a b => a + b) [1, 2] 0 1000000 (by decide)
    (by decide)).2.1 1 rfl (by norm_num)

/-- Counterexample for C6 as stated: on the two-point grid `[1, 2]` (fewer
than 3 mixture-ratio points), the extrapolating evaluation at `of = 3`
(above `of.max()`) raises no error at all — Python negative indexing
makes it return the number `5`. -/
theorem C6_insufficient_grid_refuted :
    funcEval (fun a b => a + b) [1, 2] (Extrap.strategy strLinear)
      3 1000000 = Except.ok (some 5) := by
  have hmn : npMin [(1 : ℚ), 2] = Except.ok 1 := rfl
  have hmx : npMax [(1 : ℚ), 2] = Except.ok 2 := rfl
  rw [funcEval_above (fun a b => a + b) [1, 2] (Extrap.strategy strLinear)
    3 1000000 1 2 hmn (by norm_num) hmx (by norm_num)]
  rw [show (([1, 2] : List ℚ).map
      (fun x => (fun a b => a + b) x ((1000000 : ℚ) * (1 / 1000000)))) =
    [1 + 1000000 * (1 / 1000000), 2 + 1000000 * (1 / 1000000)] from rfl]
  rw [aboveBranch_two]
  norm_num [extrapfunc_linear]
